import Mathlib

/-
Verification development for the personal-reading-list-api repository.

The embedding models:
  * models/article.go : the Article record, its comma-joined tag
    serialization, and the store operations Save, DeleteArticle,
    UpdateArticleStatus, UpdateArticleTags, GetArticleByID,
    GetArticlesByUserID.  The SQLite table is modelled as a list of rows;
    a parameterized UPDATE/DELETE with `WHERE id=? AND user_id=?` becomes
    a map/filter over that list, and `RowsAffected` becomes the length of
    the matching sublist.
  * handlers/article.go : the request-level validation and error
    translation of UpdateArticleStatus, UpdateArticleTags and
    ReturnArticle (auth middleware is assumed to have supplied a user id;
    the handler result is modelled as the HTTP status code it writes).
  * services/article_processor.go : ProcessNewArticle.  Its external
    effects (http.Get, io.ReadAll, the goquery parse + title/body
    extraction, the GenAI client creation and the two GenerateContent
    calls) are supplied as oracle inputs in a PipelineEnv record; the
    function body is a direct transcription of the Go control flow.
    log.Fatal (missing GEMINI_API_KEY) terminates the process and is
    modelled as halting with no store write and no enrichment call.
-/

namespace ReadingList

/-- Characters-level split on the comma character.  Models Go
`strings.Split(s, ",")`: the result lists the (possibly empty) runs of
characters between commas; splitting the empty string yields `[[]]`,
matching the Go result `strings.Split("", ",") == [""]`. -/
def splitCommaChars : List Char → List (List Char)
  | [] => [[]]
  | c :: cs =>
    if c = ',' then [] :: splitCommaChars cs
    else
      match splitCommaChars cs with
      | [] => [[c]]
      | g :: gs => (c :: g) :: gs

/-- Characters-level join with the comma character.  Models Go
`strings.Join(l, ",")`: concatenates the pieces with a single comma
between consecutive pieces. -/
def joinCommaChars : List (List Char) → List Char
  | [] => []
  | [l] => l
  | l :: l2 :: ls => l ++ ',' :: joinCommaChars (l2 :: ls)

/-- Go `strings.Split(s, ",")` on Lean strings. -/
def goSplit (s : String) : List String :=
  (splitCommaChars s.data).map String.mk

/-- Go `strings.Join(ts, ",")` on Lean strings. -/
def goJoin (ts : List String) : String :=
  String.mk (joinCommaChars (ts.map String.data))

/-- models/article.go: the Article struct.  Timestamps are abstract
instants (Nat). -/
structure Article where
  id : String
  userID : String
  url : String
  title : String
  summary : String
  tags : List String
  status : String
  createdAt : Nat
  updatedAt : Nat
  deriving Repr, DecidableEq

/-- One row of the articles table; `tagsStr` is the comma-joined tags
column. -/
structure Row where
  id : String
  userID : String
  url : String
  title : String
  summary : String
  tagsStr : String
  status : String
  createdAt : Nat
  updatedAt : Nat
  deriving Repr, DecidableEq

/-- The articles table. -/
abbrev Store := List Row

/-- The store-level error produced by mutations whose WHERE clause
matched no row: Go formats the message (article with ID %s not found or
not owned by user %s) from the id and the user id. -/
inductive StoreError where
  | notFoundOrNotOwned (id userID : String)
  deriving Repr, DecidableEq

/-- models/article.go Article.Save.  `a.ID == ""` selects the INSERT
branch (a fresh id — GenerateUUID in Go — and the current instant are
supplied as arguments); otherwise the UPDATE branch rewrites url, title,
summary, tags, status and updated_at of every row matching
`id=? AND user_id=?`.  Returns the (mutated) article together with the
new table state. -/
def Article.Save (a : Article) (newID : String) (now : Nat) (store : Store) :
    Article × Store :=
  let tagsStr := goJoin a.tags
  if a.id = "" then
    let a1 := { a with id := newID, createdAt := now, updatedAt := now }
    (a1, store ++ [{ id := a1.id, userID := a1.userID, url := a1.url,
                     title := a1.title, summary := a1.summary,
                     tagsStr := tagsStr, status := a1.status,
                     createdAt := now, updatedAt := now }])
  else
    let a1 := { a with updatedAt := now }
    (a1, store.map (fun r =>
      if r.id = a.id ∧ r.userID = a.userID then
        { r with url := a.url, title := a.title, summary := a.summary,
                 tagsStr := tagsStr, status := a.status, updatedAt := now }
      else r))

/-- Number of rows matched by `WHERE id=? AND user_id=?`; models the
`RowsAffected` check after an UPDATE or DELETE. -/
def matchCount (id userID : String) (store : Store) : Nat :=
  (store.filter (fun r => decide (r.id = id ∧ r.userID = userID))).length

/-- models/article.go DeleteArticle: DELETE scoped by id and user id;
zero affected rows is reported as the not-found error. -/
def DeleteArticle (id userID : String) (store : Store) :
    Except StoreError Store :=
  let store1 := store.filter (fun r => decide (¬ (r.id = id ∧ r.userID = userID)))
  if matchCount id userID store = 0 then
    Except.error (StoreError.notFoundOrNotOwned id userID)
  else
    Except.ok store1

/-- models/article.go UpdateArticleStatus: UPDATE status and updated_at
scoped by id and user id; zero affected rows is reported as the
not-found error. -/
def UpdateArticleStatus (id userID newStatus : String) (now : Nat)
    (store : Store) : Except StoreError Store :=
  let store1 := store.map (fun r =>
    if r.id = id ∧ r.userID = userID then
      { r with status := newStatus, updatedAt := now }
    else r)
  if matchCount id userID store = 0 then
    Except.error (StoreError.notFoundOrNotOwned id userID)
  else
    Except.ok store1

/-- models/article.go UpdateArticleTags: joins the new tags with commas,
UPDATE scoped by id and user id; zero affected rows is reported as the
not-found error. -/
def UpdateArticleTags (id userID : String) (newTags : List String)
    (now : Nat) (store : Store) : Except StoreError Store :=
  let tagsStr := goJoin newTags
  let store1 := store.map (fun r =>
    if r.id = id ∧ r.userID = userID then
      { r with tagsStr := tagsStr, updatedAt := now }
    else r)
  if matchCount id userID store = 0 then
    Except.error (StoreError.notFoundOrNotOwned id userID)
  else
    Except.ok store1

/-- Reconstructs an Article from a row, splitting the tags column on
commas (the Scan + strings.Split step shared by the readers). -/
def rowToArticle (r : Row) : Article :=
  { id := r.id, userID := r.userID, url := r.url, title := r.title,
    summary := r.summary, tags := goSplit r.tagsStr, status := r.status,
    createdAt := r.createdAt, updatedAt := r.updatedAt }

/-- models/article.go GetArticleByID: QueryRow scoped by id and user id;
sql.ErrNoRows is translated to `(nil, nil)`, i.e. `Except.ok none`. -/
def GetArticleByID (id userID : String) (store : Store) :
    Except StoreError (Option Article) :=
  match store.find? (fun r => decide (r.id = id ∧ r.userID = userID)) with
  | none => Except.ok none
  | some r => Except.ok (some (rowToArticle r))

/-- models/article.go GetArticlesByUserID: all rows of the user, with an
optional exact status filter and an optional `LIKE %tag%` substring
filter against the serialized tags column. -/
def GetArticlesByUserID (userID statusFilter tagFilter : String)
    (store : Store) : List Article :=
  (store.filter (fun r =>
      decide (r.userID = userID)
      && (decide (statusFilter = "") || decide (r.status = statusFilter))
      && (decide (tagFilter = "")
          || decide (List.IsInfix tagFilter.data r.tagsStr.data)))).map
    rowToArticle

/-- handlers/article.go UpdateArticleStatus: after auth, requires a
non-empty article id, decodes the payload, rejects any status other
than "read" or "unread" with 400, and maps the not-found error of the
store
to 404.  Result is the written HTTP status code and the table state. -/
def HandlerUpdateArticleStatus (userID articleID reqStatus : String)
    (now : Nat) (store : Store) : Nat × Store :=
  if articleID = "" then (400, store)
  else if reqStatus ≠ "read" ∧ reqStatus ≠ "unread" then (400, store)
  else
    match UpdateArticleStatus articleID userID reqStatus now store with
    | Except.error _ => (404, store)
    | Except.ok store1 => (200, store1)

/-- handlers/article.go UpdateArticleTags: after auth, requires a
non-empty article id, rejects an empty tag list with 400, and maps the
not-found error of the store to 404. -/
def HandlerUpdateArticleTags (userID articleID : String)
    (reqTags : List String) (now : Nat) (store : Store) : Nat × Store :=
  if articleID = "" then (400, store)
  else if reqTags.length = 0 then (400, store)
  else
    match UpdateArticleTags articleID userID reqTags now store with
    | Except.error _ => (404, store)
    | Except.ok store1 => (200, store1)

/-- handlers/article.go ReturnArticle: after auth, requires a non-empty
article id, fetches via GetArticleByID, answers 500 on a store error,
404 when the article is nil, 200 otherwise.  Result is the HTTP status
code. -/
def ReturnArticle (userID articleID : String) (store : Store) : Nat :=
  if articleID = "" then 400
  else
    match GetArticleByID articleID userID store with
    | Except.error _ => 500
    | Except.ok none => 404
    | Except.ok (some _) => 200

/-- Outcome of `http.Get(article.URL)` when no transport error occurred:
the response status code, whether `io.ReadAll` on the body succeeds, and
`fullContent.Request.URL.String()`, the redirect-resolved final URL. -/
structure FetchResponse where
  statusCode : Nat
  readOk : Bool
  finalURL : String
  deriving Repr, DecidableEq

/-- Outcome of `http.Get`: a transport error, or a response. -/
inductive FetchOutcome where
  | err
  | ok (resp : FetchResponse)
  deriving Repr, DecidableEq

/-- A non-nil `genai.GenerateContentResponse`; `text` is what its
`.Text()` accessor returns. -/
structure GenResponse where
  text : String
  deriving Repr, DecidableEq

/-- Outcome of one `client.Models.GenerateContent` call: an error, or a
possibly-nil response pointer. -/
inductive GenOutcome where
  | err
  | ok (resp : Option GenResponse)
  deriving Repr, DecidableEq

/-- The summary prompt built by ProcessNewArticle. -/
def summaryPrompt (bodyText : String) : String :=
  "Summarize the following article: " ++ bodyText

/-- The tags prompt built by ProcessNewArticle. -/
def tagsPrompt (bodyText : String) : String :=
  "Generate a comma-separated list of tags for the following article: "
    ++ bodyText

/-- Oracle inputs for one run of ProcessNewArticle: every external
effect the Go function performs, in program order.  `parse` is the
goquery step: `none` models `NewDocumentFromReader` failing, and
`some (title, bodyText)` gives `doc.Find("title").Text()` and
`doc.Find("body").Text()`.  `newID` and `now` feed the Save calls. -/
structure PipelineEnv where
  fetch : FetchOutcome
  parse : Option (String × String)
  apiKey : String
  clientOk : Bool
  summaryResult : GenOutcome
  tagsResult : GenOutcome
  newID : String
  now : Nat
  deriving Repr, DecidableEq

/-- Result of one run: the in-memory article at exit, the table state,
and the prompts of the GenerateContent calls that were issued, in
order. -/
structure PipelineResult where
  article : Article
  store : Store
  calls : List String
  deriving Repr, DecidableEq

/-- services/article_processor.go ProcessNewArticle, transcribed branch
by branch:
1. transport error on fetch: set status "failed", Save, return;
2. response status other than 200: return (no store write);
3. io.ReadAll failure: return;
4. goquery parse failure: return;
5. title fallback (`title == ""` substitutes `article.URL`, before the
   URL is normalized to the resolved one), then URL normalization;
6. empty GEMINI_API_KEY: log.Fatal terminates the process (no call, no
   write); client-creation failure: return;
7. summary GenerateContent: on error or nil response, return (one call
   issued);
8. tags GenerateContent: on error or nil response, return (two calls
   issued);
9. set summary, tags (comma split of the tag text), status "unread",
   and Save. -/
def ProcessNewArticle (a : Article) (env : PipelineEnv) (store : Store) :
    PipelineResult :=
  match env.fetch with
  | FetchOutcome.err =>
    let res := Article.Save { a with status := "failed" } env.newID env.now store
    { article := res.1, store := res.2, calls := [] }
  | FetchOutcome.ok resp =>
    if resp.statusCode ≠ 200 then { article := a, store := store, calls := [] }
    else if resp.readOk = false then { article := a, store := store, calls := [] }
    else
      match env.parse with
      | none => { article := a, store := store, calls := [] }
      | some (title0, bodyText) =>
        let title := if title0 = "" then a.url else title0
        let a1 := { a with title := title, url := resp.finalURL }
        if env.apiKey = "" then { article := a1, store := store, calls := [] }
        else if env.clientOk = false then
          { article := a1, store := store, calls := [] }
        else
          match env.summaryResult with
          | GenOutcome.err =>
            { article := a1, store := store, calls := [summaryPrompt bodyText] }
          | GenOutcome.ok none =>
            { article := a1, store := store, calls := [summaryPrompt bodyText] }
          | GenOutcome.ok (some sresp) =>
            match env.tagsResult with
            | GenOutcome.err =>
              { article := a1, store := store,
                calls := [summaryPrompt bodyText, tagsPrompt bodyText] }
            | GenOutcome.ok none =>
              { article := a1, store := store,
                calls := [summaryPrompt bodyText, tagsPrompt bodyText] }
            | GenOutcome.ok (some tresp) =>
              let a2 :=
                { a1 with
                  summary := sresp.text,
                  tags := goSplit tresp.text,
                  status := "unread" }
              let res := Article.Save a2 env.newID env.now store
              { article := res.1, store := res.2,
                calls := [summaryPrompt bodyText, tagsPrompt bodyText] }

/-- The run got past fetch, read and parse: extraction succeeded. -/
def extractionOk (env : PipelineEnv) : Prop :=
  ∃ resp title bodyText,
    env.fetch = FetchOutcome.ok resp ∧ resp.statusCode = 200 ∧
    resp.readOk = true ∧ env.parse = some (title, bodyText)

/-- A status code is an HTTP success code (2xx). -/
def isSuccessStatus (c : Nat) : Prop := 200 ≤ c ∧ c < 300

/-- The reading the spec suggests for a failed enrichment call: an
error, a nil
response, or a response whose text is empty. -/
def genFailedOrEmpty : GenOutcome → Prop
  | GenOutcome.err => True
  | GenOutcome.ok none => True
  | GenOutcome.ok (some r) => r.text = ""

/-- What the code actually treats as a failed enrichment call: an error
or a nil response. -/
def genErrOrNil (g : GenOutcome) : Prop :=
  g = GenOutcome.err ∨ g = GenOutcome.ok none

/-- Row-level invariant relation: the new row keeps the id and owner of
the old row, and
does not re-enter "processing" once the old row had left it. -/
def preservesRow (r r1 : Row) : Prop :=
  r1.id = r.id ∧ r1.userID = r.userID ∧
    (r.status ≠ "processing" → r1.status ≠ "processing")

/-- Table-level invariant relation: rows correspond pointwise and each
pair satisfies `preservesRow`. -/
def rowsPreserve (old new : Store) : Prop :=
  List.Forall₂ preservesRow old new

lemma preservesRow_refl (r : Row) : preservesRow r r :=
  ⟨rfl, rfl, id⟩

lemma rowsPreserve_refl (l : Store) : rowsPreserve l l :=
  List.forall₂_same.mpr (fun r _ => preservesRow_refl r)

lemma rowsPreserve_map (l : Store) (f : Row → Row)
    (h : ∀ r, preservesRow r (f r)) : rowsPreserve l (l.map f) := by
  induction l with
  | nil => exact List.Forall₂.nil
  | cons r t ih => exact List.Forall₂.cons (h r) ih

/-- The UPDATE branch of Save leaves the table as a pointwise map. -/
lemma save_update_store (a : Article) (nid : String) (now : Nat)
    (store : Store) (hid : a.id ≠ "") :
    (Article.Save a nid now store).2 = store.map (fun r =>
      if r.id = a.id ∧ r.userID = a.userID then
        { r with url := a.url, title := a.title, summary := a.summary,
                 tagsStr := goJoin a.tags, status := a.status,
                 updatedAt := now }
      else r) := by
  simp [Article.Save, hid]

/-- The UPDATE branch of Save only refreshes the updatedAt field of the
in-memory article. -/
lemma save_update_article (a : Article) (nid : String) (now : Nat)
    (store : Store) (hid : a.id ≠ "") :
    (Article.Save a nid now store).1 = { a with updatedAt := now } := by
  simp [Article.Save, hid]

/-- After the UPDATE branch of Save, every row carrying the id and owner
of the article holds exactly the mutable fields of that article. -/
lemma mem_save_update_store (a : Article) (nid : String) (now : Nat)
    (store : Store) (hid : a.id ≠ "") (row : Row)
    (hrow : row ∈ (Article.Save a nid now store).2)
    (h1 : row.id = a.id) (h2 : row.userID = a.userID) :
    row.url = a.url ∧ row.title = a.title ∧ row.summary = a.summary ∧
    row.tagsStr = goJoin a.tags ∧ row.status = a.status ∧
    row.updatedAt = now := by
  rw [save_update_store a nid now store hid] at hrow
  rcases List.mem_map.mp hrow with ⟨r0, hr0, heq⟩
  by_cases hc : r0.id = a.id ∧ r0.userID = a.userID
  · rw [if_pos hc] at heq
    rw [← heq]
    exact ⟨rfl, rfl, rfl, rfl, rfl, rfl⟩
  · rw [if_neg hc] at heq
    exact absurd ⟨heq ▸ h1, heq ▸ h2⟩ hc

/-- The UPDATE branch of Save preserves ids, owners and the
no-return-to-processing property whenever the article being written is
not in "processing". -/
lemma save_update_rowsPreserve (a : Article) (nid : String) (now : Nat)
    (store : Store) (hid : a.id ≠ "") (hst : a.status ≠ "processing") :
    rowsPreserve store (Article.Save a nid now store).2 := by
  rw [save_update_store a nid now store hid]
  apply rowsPreserve_map
  intro r
  by_cases hc : r.id = a.id ∧ r.userID = a.userID
  · rw [if_pos hc]
    exact ⟨rfl, rfl, fun _ => hst⟩
  · rw [if_neg hc]
    exact preservesRow_refl r

/-- C1: for every article whose fetch step returns a transport error,
ProcessNewArticle sets the status to "failed" and persists it via Save,
and the title, summary and tags are left unchanged from their creation
values, both in memory and in every persisted row of the article. -/
theorem c1_fetch_error_persists_failed (a : Article) (env : PipelineEnv)
    (store : Store) (hf : env.fetch = FetchOutcome.err) (hid : a.id ≠ "") :
    (ProcessNewArticle a env store).article.status = "failed" ∧
    (ProcessNewArticle a env store).article.title = a.title ∧
    (ProcessNewArticle a env store).article.summary = a.summary ∧
    (ProcessNewArticle a env store).article.tags = a.tags ∧
    (ProcessNewArticle a env store).store =
      (Article.Save { a with status := "failed" } env.newID env.now store).2 ∧
    ∀ row ∈ (ProcessNewArticle a env store).store,
      row.id = a.id → row.userID = a.userID →
      row.status = "failed" ∧ row.title = a.title ∧
      row.summary = a.summary ∧ row.tagsStr = goJoin a.tags := by
  have hrun : ProcessNewArticle a env store =
      { article := (Article.Save { a with status := "failed" } env.newID env.now store).1,
        store := (Article.Save { a with status := "failed" } env.newID env.now store).2,
        calls := [] } := by
    simp [ProcessNewArticle, hf]
  have hid1 : ({ a with status := "failed" } : Article).id ≠ "" := hid
  rw [hrun]
  refine ⟨?_, ?_, ?_, ?_, rfl, ?_⟩
  · rw [save_update_article _ _ _ _ hid1]
  · rw [save_update_article _ _ _ _ hid1]
  · rw [save_update_article _ _ _ _ hid1]
  · rw [save_update_article _ _ _ _ hid1]
  · intro row hrow hrid hruid
    have h := mem_save_update_store { a with status := "failed" }
      env.newID env.now store hid1 row hrow hrid hruid
    exact ⟨h.2.2.2.2.1, h.2.1, h.2.2.1, h.2.2.2.1⟩

/-- Witness for C1 at a concrete article, environment and table. -/
theorem c1_fetch_error_persists_failed_witness :
    (ProcessNewArticle
      { id := "a1", userID := "u1", url := "http://x", title := "",
        summary := "", tags := [], status := "processing", createdAt := 0,
        updatedAt := 0 }
      { fetch := FetchOutcome.err, parse := none, apiKey := "k",
        clientOk := true, summaryResult := GenOutcome.err,
        tagsResult := GenOutcome.err, newID := "n", now := 5 }
      [{ id := "a1", userID := "u1", url := "http://x", title := "",
         summary := "", tagsStr := "", status := "processing",
         createdAt := 0, updatedAt := 0 }]).article.status = "failed" :=
  (c1_fetch_error_persists_failed
    { id := "a1", userID := "u1", url := "http://x", title := "",
      summary := "", tags := [], status := "processing", createdAt := 0,
      updatedAt := 0 }
    { fetch := FetchOutcome.err, parse := none, apiKey := "k",
      clientOk := true, summaryResult := GenOutcome.err,
      tagsResult := GenOutcome.err, newID := "n", now := 5 }
    [{ id := "a1", userID := "u1", url := "http://x", title := "",
       summary := "", tagsStr := "", status := "processing",
       createdAt := 0, updatedAt := 0 }] rfl (by decide)).1

/-- C2: for every article whose fetch succeeds but returns a non-success
HTTP status code, ProcessNewArticle stops without any store write: the
table is unchanged (so the persisted status stays "processing") and the
in-memory article is untouched. -/
theorem c2_nonsuccess_status_no_write (a : Article) (env : PipelineEnv)
    (store : Store) (resp : FetchResponse)
    (hf : env.fetch = FetchOutcome.ok resp)
    (hns : ¬ isSuccessStatus resp.statusCode) :
    (ProcessNewArticle a env store).store = store ∧
    (ProcessNewArticle a env store).article = a := by
  have h200 : resp.statusCode ≠ 200 := by
    intro h
    exact hns ⟨by omega, by omega⟩
  simp [ProcessNewArticle, hf, h200]

/-- Witness for C2 at a concrete run whose fetch returned HTTP 404. -/
theorem c2_nonsuccess_status_no_write_witness :
    (ProcessNewArticle
      { id := "a1", userID := "u1", url := "http://x", title := "",
        summary := "", tags := [], status := "processing", createdAt := 0,
        updatedAt := 0 }
      { fetch := FetchOutcome.ok
          { statusCode := 404, readOk := true, finalURL := "http://x" },
        parse := some ("T", "B"), apiKey := "k", clientOk := true,
        summaryResult := GenOutcome.ok (some { text := "S" }),
        tagsResult := GenOutcome.ok (some { text := "t" }),
        newID := "n", now := 5 }
      [{ id := "a1", userID := "u1", url := "http://x", title := "",
         summary := "", tagsStr := "", status := "processing",
         createdAt := 0, updatedAt := 0 }]).store =
      [{ id := "a1", userID := "u1", url := "http://x", title := "",
         summary := "", tagsStr := "", status := "processing",
         createdAt := 0, updatedAt := 0 }] :=
  (c2_nonsuccess_status_no_write
    { id := "a1", userID := "u1", url := "http://x", title := "",
      summary := "", tags := [], status := "processing", createdAt := 0,
      updatedAt := 0 }
    { fetch := FetchOutcome.ok
        { statusCode := 404, readOk := true, finalURL := "http://x" },
      parse := some ("T", "B"), apiKey := "k", clientOk := true,
      summaryResult := GenOutcome.ok (some { text := "S" }),
      tagsResult := GenOutcome.ok (some { text := "t" }),
      newID := "n", now := 5 }
    [{ id := "a1", userID := "u1", url := "http://x", title := "",
       summary := "", tagsStr := "", status := "processing",
       createdAt := 0, updatedAt := 0 }]
    { statusCode := 404, readOk := true, finalURL := "http://x" }
    rfl (by intro h; exact absurd h.2 (by decide))).1

/-- The claim-side notion of trimming: drop leading and trailing
whitespace characters. -/
def trimWS (s : String) : String :=
  String.mk
    (((s.data.dropWhile Char.isWhitespace).reverse.dropWhile
        Char.isWhitespace).reverse)

/-- The article committed by the success path: title fallback applied
against the originally submitted URL, URL normalized to the resolved
one, generated summary, comma-split tags, status "unread". -/
def commitArticle (a : Article) (resp : FetchResponse) (title0 : String)
    (sresp tresp : GenResponse) : Article :=
  { a with
    title := if title0 = "" then a.url else title0,
    url := resp.finalURL,
    summary := sresp.text,
    tags := goSplit tresp.text,
    status := "unread" }

/-- On a fully successful run, ProcessNewArticle commits
`commitArticle` through Save after issuing the two prompts. -/
lemma run_commit (a : Article) (env : PipelineEnv) (store : Store)
    (resp : FetchResponse) (t b : String) (sresp tresp : GenResponse)
    (hf : env.fetch = FetchOutcome.ok resp) (h200 : resp.statusCode = 200)
    (hro : resp.readOk = true) (hp : env.parse = some (t, b))
    (hak : env.apiKey ≠ "") (hck : env.clientOk = true)
    (hs : env.summaryResult = GenOutcome.ok (some sresp))
    (htg : env.tagsResult = GenOutcome.ok (some tresp)) :
    ProcessNewArticle a env store =
      { article := (Article.Save (commitArticle a resp t sresp tresp)
          env.newID env.now store).1,
        store := (Article.Save (commitArticle a resp t sresp tresp)
          env.newID env.now store).2,
        calls := [summaryPrompt b, tagsPrompt b] } := by
  simp [ProcessNewArticle, hf, h200, hro, hp, hak, hck, hs, htg,
    commitArticle]

/-- Every run issues one of: no prompt, the summary prompt alone, or the
summary prompt followed by the tags prompt. -/
lemma calls_cases (a : Article) (env : PipelineEnv) (store : Store) :
    (ProcessNewArticle a env store).calls = [] ∨
    (∃ b, (ProcessNewArticle a env store).calls = [summaryPrompt b]) ∨
    (∃ b, (ProcessNewArticle a env store).calls
        = [summaryPrompt b, tagsPrompt b]) := by
  rcases hf : env.fetch with _ | resp
  · left; simp [ProcessNewArticle, hf]
  · by_cases h200 : resp.statusCode = 200
    · cases hro : resp.readOk with
      | false => left; simp [ProcessNewArticle, hf, h200, hro]
      | true =>
        rcases hp : env.parse with _ | tb
        · left; simp [ProcessNewArticle, hf, h200, hro, hp]
        · rcases tb with ⟨t, b⟩
          by_cases hak : env.apiKey = ""
          · left; simp [ProcessNewArticle, hf, h200, hro, hp, hak]
          · cases hck : env.clientOk with
            | false =>
              left; simp [ProcessNewArticle, hf, h200, hro, hp, hak, hck]
            | true =>
              rcases hs : env.summaryResult with _ | sr
              · right; left
                exact ⟨b, by
                  simp [ProcessNewArticle, hf, h200, hro, hp, hak, hck, hs]⟩
              · rcases sr with _ | sresp
                · right; left
                  exact ⟨b, by
                    simp [ProcessNewArticle, hf, h200, hro, hp, hak, hck, hs]⟩
                · rcases htg : env.tagsResult with _ | tr
                  · right; right
                    exact ⟨b, by
                      simp [ProcessNewArticle, hf, h200, hro, hp, hak, hck,
                        hs, htg]⟩
                  · rcases tr with _ | tresp
                    · right; right
                      exact ⟨b, by
                        simp [ProcessNewArticle, hf, h200, hro, hp, hak, hck,
                          hs, htg]⟩
                    · right; right
                      exact ⟨b, by
                        simp [ProcessNewArticle, hf, h200, hro, hp, hak, hck,
                          hs, htg]⟩
    · left; simp [ProcessNewArticle, hf, h200]

/-- C5 counterexample: the claim "every run in which extraction succeeds
issues exactly two enrichment calls" is false — when the summary call
itself errors, only one call is issued.  Concrete input: fetch 200,
parse yields ("T", "B"), the summary GenerateContent call returns an
error. -/
theorem c5_counterexample :
    ¬ (∀ (a : Article) (env : PipelineEnv) (store : Store),
        extractionOk env →
        (ProcessNewArticle a env store).calls.length = 2) := by
  intro h
  have h1 := h
    { id := "a1", userID := "u1", url := "http://x", title := "",
      summary := "", tags := [], status := "processing", createdAt := 0,
      updatedAt := 0 }
    { fetch := FetchOutcome.ok
        { statusCode := 200, readOk := true, finalURL := "http://x" },
      parse := some ("T", "B"), apiKey := "k", clientOk := true,
      summaryResult := GenOutcome.err,
      tagsResult := GenOutcome.ok (some { text := "t" }),
      newID := "n", now := 5 }
    []
    ⟨{ statusCode := 200, readOk := true, finalURL := "http://x" },
      "T", "B", rfl, rfl, rfl, rfl⟩
  exact absurd h1 (by decide)

/-- C5 (amended): every run issues at most two enrichment calls, and a
run that reaches the tags request — extraction succeeded, the API key is
set, the client was created and the summary call returned a non-nil
response — issues exactly the summary prompt followed by the tags
prompt; when the summary call errors or returns nil, only the one
summary call is issued. -/
theorem c5_enrichment_call_bounds :
    (∀ (a : Article) (env : PipelineEnv) (store : Store),
      (ProcessNewArticle a env store).calls.length ≤ 2) ∧
    (∀ (a : Article) (env : PipelineEnv) (store : Store)
        (resp : FetchResponse) (t b : String),
      env.fetch = FetchOutcome.ok resp → resp.statusCode = 200 →
      resp.readOk = true → env.parse = some (t, b) → env.apiKey ≠ "" →
      env.clientOk = true →
      (∃ sr, env.summaryResult = GenOutcome.ok (some sr)) →
      (ProcessNewArticle a env store).calls
        = [summaryPrompt b, tagsPrompt b]) ∧
    (∀ (a : Article) (env : PipelineEnv) (store : Store)
        (resp : FetchResponse) (t b : String),
      env.fetch = FetchOutcome.ok resp → resp.statusCode = 200 →
      resp.readOk = true → env.parse = some (t, b) → env.apiKey ≠ "" →
      env.clientOk = true → genErrOrNil env.summaryResult →
      (ProcessNewArticle a env store).calls = [summaryPrompt b]) := by
  refine ⟨?_, ?_, ?_⟩
  · intro a env store
    rcases calls_cases a env store with h | ⟨b, h⟩ | ⟨b, h⟩ <;> simp [h]
  · intro a env store resp t b hf h200 hro hp hak hck hsum
    rcases hsum with ⟨sr, hs⟩
    rcases htg : env.tagsResult with _ | tr
    · simp [ProcessNewArticle, hf, h200, hro, hp, hak, hck, hs, htg]
    · rcases tr with _ | tresp <;>
        simp [ProcessNewArticle, hf, h200, hro, hp, hak, hck, hs, htg]
  · intro a env store resp t b hf h200 hro hp hak hck hsum
    rcases hsum with hs | hs <;>
      simp [ProcessNewArticle, hf, h200, hro, hp, hak, hck, hs]

/-- Witness for C5 (amended) at a concrete fully successful run. -/
theorem c5_enrichment_call_bounds_witness :
    (ProcessNewArticle
      { id := "a1", userID := "u1", url := "http://x", title := "",
        summary := "", tags := [], status := "processing", createdAt := 0,
        updatedAt := 0 }
      { fetch := FetchOutcome.ok
          { statusCode := 200, readOk := true, finalURL := "http://x" },
        parse := some ("T", "B"), apiKey := "k", clientOk := true,
        summaryResult := GenOutcome.ok (some { text := "S" }),
        tagsResult := GenOutcome.ok (some { text := "t" }),
        newID := "n", now := 5 }
      []).calls = [summaryPrompt "B", tagsPrompt "B"] :=
  c5_enrichment_call_bounds.2.1
    { id := "a1", userID := "u1", url := "http://x", title := "",
      summary := "", tags := [], status := "processing", createdAt := 0,
      updatedAt := 0 }
    { fetch := FetchOutcome.ok
        { statusCode := 200, readOk := true, finalURL := "http://x" },
      parse := some ("T", "B"), apiKey := "k", clientOk := true,
      summaryResult := GenOutcome.ok (some { text := "S" }),
      tagsResult := GenOutcome.ok (some { text := "t" }),
      newID := "n", now := 5 }
    []
    { statusCode := 200, readOk := true, finalURL := "http://x" }
    "T" "B" rfl rfl rfl rfl (by decide) rfl ⟨{ text := "S" }, rfl⟩

/-- C6 counterexample: the claim "a failed or empty enrichment result
stops the run without a store write" is false under the natural reading
of "empty result": a non-nil summary response whose text is empty is not
treated as empty by the code — the run continues and commits, writing
the store.  Concrete input: summary response non-nil with empty text,
tags response "t1"; the stored row moves from "processing" to
"unread". -/
theorem c6_counterexample :
    ¬ (∀ (a : Article) (env : PipelineEnv) (store : Store)
        (resp : FetchResponse) (t b : String),
        env.fetch = FetchOutcome.ok resp → resp.statusCode = 200 →
        resp.readOk = true → env.parse = some (t, b) → env.apiKey ≠ "" →
        env.clientOk = true →
        (genFailedOrEmpty env.summaryResult ∨
          genFailedOrEmpty env.tagsResult) →
        (ProcessNewArticle a env store).store = store) := by
  intro h
  have h1 := h
    { id := "a1", userID := "u1", url := "http://x", title := "",
      summary := "", tags := [], status := "processing", createdAt := 0,
      updatedAt := 0 }
    { fetch := FetchOutcome.ok
        { statusCode := 200, readOk := true, finalURL := "http://x" },
      parse := some ("T", "B"), apiKey := "k", clientOk := true,
      summaryResult := GenOutcome.ok (some { text := "" }),
      tagsResult := GenOutcome.ok (some { text := "t1" }),
      newID := "n", now := 5 }
    [{ id := "a1", userID := "u1", url := "http://x", title := "",
       summary := "", tagsStr := "", status := "processing",
       createdAt := 0, updatedAt := 0 }]
    { statusCode := 200, readOk := true, finalURL := "http://x" }
    "T" "B" rfl rfl rfl rfl (by decide) rfl (Or.inl rfl)
  exact absurd h1 (by decide)

/-- C6 (amended): if either enrichment call fails with an error or
returns a nil response — the two conditions the code checks — then on a
run whose fetch succeeded, ProcessNewArticle stops without any store
write; a non-nil response with empty text is not treated as a failure
and does not stop the run. -/
theorem c6_err_or_nil_no_write (a : Article) (env : PipelineEnv)
    (store : Store) (resp : FetchResponse)
    (hf : env.fetch = FetchOutcome.ok resp)
    (hgen : genErrOrNil env.summaryResult ∨ genErrOrNil env.tagsResult) :
    (ProcessNewArticle a env store).store = store := by
  by_cases h200 : resp.statusCode = 200
  · cases hro : resp.readOk with
    | false => simp [ProcessNewArticle, hf, h200, hro]
    | true =>
      rcases hp : env.parse with _ | tb
      · simp [ProcessNewArticle, hf, h200, hro, hp]
      · rcases tb with ⟨t, b⟩
        by_cases hak : env.apiKey = ""
        · simp [ProcessNewArticle, hf, h200, hro, hp, hak]
        · cases hck : env.clientOk with
          | false => simp [ProcessNewArticle, hf, h200, hro, hp, hak, hck]
          | true =>
            rcases hs : env.summaryResult with _ | sr
            · simp [ProcessNewArticle, hf, h200, hro, hp, hak, hck, hs]
            · rcases sr with _ | sresp
              · simp [ProcessNewArticle, hf, h200, hro, hp, hak, hck, hs]
              · rcases htg : env.tagsResult with _ | tr
                · simp [ProcessNewArticle, hf, h200, hro, hp, hak, hck, hs,
                    htg]
                · rcases tr with _ | tresp
                  · simp [ProcessNewArticle, hf, h200, hro, hp, hak, hck,
                      hs, htg]
                  · exfalso
                    rcases hgen with hg | hg <;>
                      rcases hg with hg | hg <;> simp [hs, htg] at hg
  · simp [ProcessNewArticle, hf, h200]

/-- Witness for C6 (amended): a concrete run whose summary call errors
leaves the table untouched. -/
theorem c6_err_or_nil_no_write_witness :
    (ProcessNewArticle
      { id := "a1", userID := "u1", url := "http://x", title := "",
        summary := "", tags := [], status := "processing", createdAt := 0,
        updatedAt := 0 }
      { fetch := FetchOutcome.ok
          { statusCode := 200, readOk := true, finalURL := "http://x" },
        parse := some ("T", "B"), apiKey := "k", clientOk := true,
        summaryResult := GenOutcome.err,
        tagsResult := GenOutcome.ok (some { text := "t" }),
        newID := "n", now := 5 }
      [{ id := "a1", userID := "u1", url := "http://x", title := "",
         summary := "", tagsStr := "", status := "processing",
         createdAt := 0, updatedAt := 0 }]).store =
      [{ id := "a1", userID := "u1", url := "http://x", title := "",
         summary := "", tagsStr := "", status := "processing",
         createdAt := 0, updatedAt := 0 }] :=
  c6_err_or_nil_no_write
    { id := "a1", userID := "u1", url := "http://x", title := "",
      summary := "", tags := [], status := "processing", createdAt := 0,
      updatedAt := 0 }
    { fetch := FetchOutcome.ok
        { statusCode := 200, readOk := true, finalURL := "http://x" },
      parse := some ("T", "B"), apiKey := "k", clientOk := true,
      summaryResult := GenOutcome.err,
      tagsResult := GenOutcome.ok (some { text := "t" }),
      newID := "n", now := 5 }
    [{ id := "a1", userID := "u1", url := "http://x", title := "",
       summary := "", tagsStr := "", status := "processing",
       createdAt := 0, updatedAt := 0 }]
    { statusCode := 200, readOk := true, finalURL := "http://x" }
    rfl (Or.inl (Or.inl rfl))

/-- C7 counterexample: the claim "if the extracted title is empty after
trimming whitespace then the persisted title equals the submitted URL"
is false — the code substitutes the URL only when the title is exactly
the empty string, with no trimming.  Concrete input: extracted title
" " (one space), which is empty after trimming; the committed title is
" ", not the submitted URL "http://x". -/
theorem c7_counterexample :
    ¬ (∀ (a : Article) (env : PipelineEnv) (store : Store)
        (resp : FetchResponse) (t b : String) (sresp tresp : GenResponse),
        env.fetch = FetchOutcome.ok resp → resp.statusCode = 200 →
        resp.readOk = true → env.parse = some (t, b) → env.apiKey ≠ "" →
        env.clientOk = true →
        env.summaryResult = GenOutcome.ok (some sresp) →
        env.tagsResult = GenOutcome.ok (some tresp) →
        (ProcessNewArticle a env store).article.title =
          (if trimWS t = "" then a.url else t)) := by
  intro h
  have h1 := h
    { id := "a1", userID := "u1", url := "http://x", title := "",
      summary := "", tags := [], status := "processing", createdAt := 0,
      updatedAt := 0 }
    { fetch := FetchOutcome.ok
        { statusCode := 200, readOk := true, finalURL := "http://x" },
      parse := some (" ", "B"), apiKey := "k", clientOk := true,
      summaryResult := GenOutcome.ok (some { text := "S" }),
      tagsResult := GenOutcome.ok (some { text := "t" }),
      newID := "n", now := 5 }
    []
    { statusCode := 200, readOk := true, finalURL := "http://x" }
    " " "B" { text := "S" } { text := "t" }
    rfl rfl rfl rfl (by decide) rfl rfl rfl
  exact absurd h1 (by decide)

/-- C7 (amended): on a run that reaches extraction and commits, the
persisted title equals the originally submitted URL exactly when the
extracted title is the empty string — no whitespace trimming is applied
— and equals the extracted text otherwise; this holds for the committed
in-memory article and for every persisted row of the article. -/
theorem c7_title_fallback_exact_empty (a : Article) (env : PipelineEnv)
    (store : Store) (resp : FetchResponse) (t b : String)
    (sresp tresp : GenResponse) (hid : a.id ≠ "")
    (hf : env.fetch = FetchOutcome.ok resp) (h200 : resp.statusCode = 200)
    (hro : resp.readOk = true) (hp : env.parse = some (t, b))
    (hak : env.apiKey ≠ "") (hck : env.clientOk = true)
    (hs : env.summaryResult = GenOutcome.ok (some sresp))
    (htg : env.tagsResult = GenOutcome.ok (some tresp)) :
    (ProcessNewArticle a env store).article.title =
      (if t = "" then a.url else t) ∧
    ∀ row ∈ (ProcessNewArticle a env store).store,
      row.id = a.id → row.userID = a.userID →
      row.title = (if t = "" then a.url else t) := by
  have hrun := run_commit a env store resp t b sresp tresp hf h200 hro hp
    hak hck hs htg
  have hcid : (commitArticle a resp t sresp tresp).id ≠ "" := hid
  constructor
  · rw [hrun]
    show (Article.Save (commitArticle a resp t sresp tresp)
      env.newID env.now store).1.title = _
    rw [save_update_article _ _ _ _ hcid]
    rfl
  · intro row hrow hrid hruid
    rw [hrun] at hrow
    have h := mem_save_update_store (commitArticle a resp t sresp tresp)
      env.newID env.now store hcid row hrow hrid hruid
    exact h.2.1

/-- Witness for C7 (amended) at a concrete run with extracted title
"T". -/
theorem c7_title_fallback_exact_empty_witness :
    (ProcessNewArticle
      { id := "a1", userID := "u1", url := "http://x", title := "",
        summary := "", tags := [], status := "processing", createdAt := 0,
        updatedAt := 0 }
      { fetch := FetchOutcome.ok
          { statusCode := 200, readOk := true, finalURL := "http://y" },
        parse := some ("T", "B"), apiKey := "k", clientOk := true,
        summaryResult := GenOutcome.ok (some { text := "S" }),
        tagsResult := GenOutcome.ok (some { text := "t" }),
        newID := "n", now := 5 }
      [{ id := "a1", userID := "u1", url := "http://x", title := "",
         summary := "", tagsStr := "", status := "processing",
         createdAt := 0, updatedAt := 0 }]).article.title =
      (if ("T" : String) = "" then "http://x" else "T") :=
  (c7_title_fallback_exact_empty
    { id := "a1", userID := "u1", url := "http://x", title := "",
      summary := "", tags := [], status := "processing", createdAt := 0,
      updatedAt := 0 }
    { fetch := FetchOutcome.ok
        { statusCode := 200, readOk := true, finalURL := "http://y" },
      parse := some ("T", "B"), apiKey := "k", clientOk := true,
      summaryResult := GenOutcome.ok (some { text := "S" }),
      tagsResult := GenOutcome.ok (some { text := "t" }),
      newID := "n", now := 5 }
    [{ id := "a1", userID := "u1", url := "http://x", title := "",
       summary := "", tagsStr := "", status := "processing",
       createdAt := 0, updatedAt := 0 }]
    { statusCode := 200, readOk := true, finalURL := "http://y" }
    "T" "B" { text := "S" } { text := "t" }
    (by decide) rfl rfl rfl rfl (by decide) rfl rfl rfl).1

/-- C8: on a run that reaches the tag step with returned tag text
"a, b,c" and commits, the committed tags list is exactly
["a", " b", "c"] — split on commas, no trimming, no deduplication — and
every persisted row of the article stores the comma-joined form
"a, b,c". -/
theorem c8_naive_tag_split (a : Article) (env : PipelineEnv)
    (store : Store) (resp : FetchResponse) (t b : String)
    (sresp : GenResponse) (hid : a.id ≠ "")
    (hf : env.fetch = FetchOutcome.ok resp) (h200 : resp.statusCode = 200)
    (hro : resp.readOk = true) (hp : env.parse = some (t, b))
    (hak : env.apiKey ≠ "") (hck : env.clientOk = true)
    (hs : env.summaryResult = GenOutcome.ok (some sresp))
    (htg : env.tagsResult = GenOutcome.ok (some { text := "a, b,c" })) :
    (ProcessNewArticle a env store).article.tags = ["a", " b", "c"] ∧
    ∀ row ∈ (ProcessNewArticle a env store).store,
      row.id = a.id → row.userID = a.userID →
      row.tagsStr = "a, b,c" := by
  have hrun := run_commit a env store resp t b sresp { text := "a, b,c" }
    hf h200 hro hp hak hck hs htg
  have hcid : (commitArticle a resp t sresp { text := "a, b,c" }).id ≠ "" :=
    hid
  constructor
  · rw [hrun]
    show (Article.Save (commitArticle a resp t sresp { text := "a, b,c" })
      env.newID env.now store).1.tags = _
    rw [save_update_article _ _ _ _ hcid]
    show goSplit "a, b,c" = ["a", " b", "c"]
    decide
  · intro row hrow hrid hruid
    rw [hrun] at hrow
    have h := mem_save_update_store
      (commitArticle a resp t sresp { text := "a, b,c" })
      env.newID env.now store hcid row hrow hrid hruid
    have h4 := h.2.2.2.1
    rw [h4]
    show goJoin (goSplit "a, b,c") = "a, b,c"
    decide

/-- Witness for C8 at a concrete run whose tags call returns
"a, b,c". -/
theorem c8_naive_tag_split_witness :
    (ProcessNewArticle
      { id := "a1", userID := "u1", url := "http://x", title := "",
        summary := "", tags := [], status := "processing", createdAt := 0,
        updatedAt := 0 }
      { fetch := FetchOutcome.ok
          { statusCode := 200, readOk := true, finalURL := "http://x" },
        parse := some ("T", "B"), apiKey := "k", clientOk := true,
        summaryResult := GenOutcome.ok (some { text := "S" }),
        tagsResult := GenOutcome.ok (some { text := "a, b,c" }),
        newID := "n", now := 5 }
      [{ id := "a1", userID := "u1", url := "http://x", title := "",
         summary := "", tagsStr := "", status := "processing",
         createdAt := 0, updatedAt := 0 }]).article.tags =
      ["a", " b", "c"] :=
  (c8_naive_tag_split
    { id := "a1", userID := "u1", url := "http://x", title := "",
      summary := "", tags := [], status := "processing", createdAt := 0,
      updatedAt := 0 }
    { fetch := FetchOutcome.ok
        { statusCode := 200, readOk := true, finalURL := "http://x" },
      parse := some ("T", "B"), apiKey := "k", clientOk := true,
      summaryResult := GenOutcome.ok (some { text := "S" }),
      tagsResult := GenOutcome.ok (some { text := "a, b,c" }),
      newID := "n", now := 5 }
    [{ id := "a1", userID := "u1", url := "http://x", title := "",
       summary := "", tagsStr := "", status := "processing",
       createdAt := 0, updatedAt := 0 }]
    { statusCode := 200, readOk := true, finalURL := "http://x" }
    "T" "B" { text := "S" }
    (by decide) rfl rfl rfl rfl (by decide) rfl rfl rfl).1

/-- A successful UpdateArticleStatus writing a non-"processing" status
preserves ids, owners and the no-return-to-processing property. -/
lemma updateStatus_ok_rowsPreserve (id uid s : String) (now : Nat)
    (store store1 : Store) (hs : s ≠ "processing")
    (h : UpdateArticleStatus id uid s now store = Except.ok store1) :
    rowsPreserve store store1 := by
  simp only [UpdateArticleStatus] at h
  by_cases h0 : matchCount id uid store = 0
  · rw [if_pos h0] at h
    exact absurd h (by simp)
  · rw [if_neg h0] at h
    have heq := Except.ok.inj h
    rw [← heq]
    apply rowsPreserve_map
    intro r
    by_cases hc : r.id = id ∧ r.userID = uid
    · rw [if_pos hc]
      exact ⟨rfl, rfl, fun _ => hs⟩
    · rw [if_neg hc]
      exact preservesRow_refl r

/-- A successful UpdateArticleTags never touches status, id or owner. -/
lemma updateTags_ok_rowsPreserve (id uid : String) (tags : List String)
    (now : Nat) (store store1 : Store)
    (h : UpdateArticleTags id uid tags now store = Except.ok store1) :
    rowsPreserve store store1 := by
  simp only [UpdateArticleTags] at h
  by_cases h0 : matchCount id uid store = 0
  · rw [if_pos h0] at h
    exact absurd h (by simp)
  · rw [if_neg h0] at h
    have heq := Except.ok.inj h
    rw [← heq]
    apply rowsPreserve_map
    intro r
    by_cases hc : r.id = id ∧ r.userID = uid
    · rw [if_pos hc]
      exact ⟨rfl, rfl, fun h => h⟩
    · rw [if_neg hc]
      exact preservesRow_refl r

/-- Every run of ProcessNewArticle either performs no store write and
returns an article with the id and owner of the input, or commits
through the UPDATE branch of Save some article carrying that id and
owner
and a status other than "processing". -/
lemma pipeline_shape (a : Article) (env : PipelineEnv) (store : Store) :
    ((ProcessNewArticle a env store).store = store ∧
      (ProcessNewArticle a env store).article.id = a.id ∧
      (ProcessNewArticle a env store).article.userID = a.userID) ∨
    (∃ c : Article, c.id = a.id ∧ c.userID = a.userID ∧
      c.status ≠ "processing" ∧
      (ProcessNewArticle a env store).article
        = (Article.Save c env.newID env.now store).1 ∧
      (ProcessNewArticle a env store).store
        = (Article.Save c env.newID env.now store).2) := by
  rcases hf : env.fetch with _ | resp
  · right
    exact ⟨{ a with status := "failed" }, rfl, rfl, by simp,
      by simp [ProcessNewArticle, hf], by simp [ProcessNewArticle, hf]⟩
  · by_cases h200 : resp.statusCode = 200
    · cases hro : resp.readOk with
      | false => left; simp [ProcessNewArticle, hf, h200, hro]
      | true =>
        rcases hp : env.parse with _ | tb
        · left; simp [ProcessNewArticle, hf, h200, hro, hp]
        · rcases tb with ⟨t, b⟩
          by_cases hak : env.apiKey = ""
          · left; simp [ProcessNewArticle, hf, h200, hro, hp, hak]
          · cases hck : env.clientOk with
            | false =>
              left; simp [ProcessNewArticle, hf, h200, hro, hp, hak, hck]
            | true =>
              rcases hs : env.summaryResult with _ | sr
              · left
                simp [ProcessNewArticle, hf, h200, hro, hp, hak, hck, hs]
              · rcases sr with _ | sresp
                · left
                  simp [ProcessNewArticle, hf, h200, hro, hp, hak, hck, hs]
                · rcases htg : env.tagsResult with _ | tr
                  · left
                    simp [ProcessNewArticle, hf, h200, hro, hp, hak, hck,
                      hs, htg]
                  · rcases tr with _ | tresp
                    · left
                      simp [ProcessNewArticle, hf, h200, hro, hp, hak, hck,
                        hs, htg]
                    · right
                      refine ⟨commitArticle a resp t sresp tresp, rfl, rfl,
                        by simp [commitArticle], ?_, ?_⟩
                      · have hrun := run_commit a env store resp t b sresp
                          tresp hf h200 hro hp hak hck hs htg
                        rw [hrun]
                      · have hrun := run_commit a env store resp t b sresp
                          tresp hf h200 hro hp hak hck hs htg
                        rw [hrun]
    · left; simp [ProcessNewArticle, hf, h200]

/-- C3: across the operations the system offers — the UPDATE branch of
Save as the pipeline invokes it (status "failed" or "unread"), the
status and tags update endpoints (with their request validation), and
ProcessNewArticle — every surviving row keeps its id and owner, and no
row whose status had left "processing" is ever set back to
"processing"; the pipeline also leaves the id and owner of the
in-memory article untouched. -/
theorem c3_id_owner_status_invariant :
    (∀ (a : Article) (newID : String) (now : Nat) (store : Store),
      a.id ≠ "" → (a.status = "failed" ∨ a.status = "unread") →
      rowsPreserve store (Article.Save a newID now store).2) ∧
    (∀ (userID articleID reqStatus : String) (now : Nat) (store : Store),
      rowsPreserve store
        (HandlerUpdateArticleStatus userID articleID reqStatus now store).2) ∧
    (∀ (userID articleID : String) (reqTags : List String) (now : Nat)
        (store : Store),
      rowsPreserve store
        (HandlerUpdateArticleTags userID articleID reqTags now store).2) ∧
    (∀ (a : Article) (env : PipelineEnv) (store : Store), a.id ≠ "" →
      rowsPreserve store (ProcessNewArticle a env store).store ∧
      (ProcessNewArticle a env store).article.id = a.id ∧
      (ProcessNewArticle a env store).article.userID = a.userID) := by
  refine ⟨?_, ?_, ?_, ?_⟩
  · intro a newID now store hid hst
    apply save_update_rowsPreserve a newID now store hid
    rcases hst with h | h <;> rw [h] <;> decide
  · intro userID articleID reqStatus now store
    by_cases hid0 : articleID = ""
    · simp only [HandlerUpdateArticleStatus, if_pos hid0]
      exact rowsPreserve_refl store
    · rw [HandlerUpdateArticleStatus, if_neg hid0]
      by_cases hval : reqStatus ≠ "read" ∧ reqStatus ≠ "unread"
      · rw [if_pos hval]
        exact rowsPreserve_refl store
      · rw [if_neg hval]
        have hor : reqStatus = "read" ∨ reqStatus = "unread" := by
          rcases not_and_or.mp hval with h | h
          · exact Or.inl (not_not.mp h)
          · exact Or.inr (not_not.mp h)
        have hs : reqStatus ≠ "processing" := by
          rcases hor with h | h <;> rw [h] <;> decide
        cases hres : UpdateArticleStatus articleID userID reqStatus now store with
        | error e =>
          simp only [hres]
          exact rowsPreserve_refl store
        | ok store1 =>
          simp only [hres]
          exact updateStatus_ok_rowsPreserve articleID userID reqStatus now
            store store1 hs hres
  · intro userID articleID reqTags now store
    by_cases hid0 : articleID = ""
    · simp only [HandlerUpdateArticleTags, if_pos hid0]
      exact rowsPreserve_refl store
    · rw [HandlerUpdateArticleTags, if_neg hid0]
      by_cases hlen : reqTags.length = 0
      · rw [if_pos hlen]
        exact rowsPreserve_refl store
      · rw [if_neg hlen]
        cases hres : UpdateArticleTags articleID userID reqTags now store with
        | error e =>
          simp only [hres]
          exact rowsPreserve_refl store
        | ok store1 =>
          simp only [hres]
          exact updateTags_ok_rowsPreserve articleID userID reqTags now
            store store1 hres
  · intro a env store hid
    rcases pipeline_shape a env store with ⟨h1, h2, h3⟩ |
      ⟨c, hc1, hc2, hc3, hart, hst⟩
    · exact ⟨by rw [h1]; exact rowsPreserve_refl store, h2, h3⟩
    · have hcid : c.id ≠ "" := by rw [hc1]; exact hid
      refine ⟨?_, ?_, ?_⟩
      · rw [hst]
        exact save_update_rowsPreserve c env.newID env.now store hcid hc3
      · rw [hart, save_update_article c env.newID env.now store hcid]
        exact hc1
      · rw [hart, save_update_article c env.newID env.now store hcid]
        exact hc2

/-- Witness for C3: the pipeline conjunct at a concrete run committing
"unread" over a table whose article had left "processing". -/
theorem c3_id_owner_status_invariant_witness :
    rowsPreserve
      [{ id := "a1", userID := "u1", url := "http://x", title := "",
         summary := "", tagsStr := "", status := "processing",
         createdAt := 0, updatedAt := 0 }]
      (ProcessNewArticle
        { id := "a1", userID := "u1", url := "http://x", title := "",
          summary := "", tags := [], status := "processing",
          createdAt := 0, updatedAt := 0 }
        { fetch := FetchOutcome.ok
            { statusCode := 200, readOk := true, finalURL := "http://x" },
          parse := some ("T", "B"), apiKey := "k", clientOk := true,
          summaryResult := GenOutcome.ok (some { text := "S" }),
          tagsResult := GenOutcome.ok (some { text := "t" }),
          newID := "n", now := 5 }
        [{ id := "a1", userID := "u1", url := "http://x", title := "",
           summary := "", tagsStr := "", status := "processing",
           createdAt := 0, updatedAt := 0 }]).store :=
  (c3_id_owner_status_invariant.2.2.2
    { id := "a1", userID := "u1", url := "http://x", title := "",
      summary := "", tags := [], status := "processing", createdAt := 0,
      updatedAt := 0 }
    { fetch := FetchOutcome.ok
        { statusCode := 200, readOk := true, finalURL := "http://x" },
      parse := some ("T", "B"), apiKey := "k", clientOk := true,
      summaryResult := GenOutcome.ok (some { text := "S" }),
      tagsResult := GenOutcome.ok (some { text := "t" }),
      newID := "n", now := 5 }
    [{ id := "a1", userID := "u1", url := "http://x", title := "",
       summary := "", tagsStr := "", status := "processing",
       createdAt := 0, updatedAt := 0 }]
    (by decide)).1

/-- C4: when no row carries both the requested id and the requesting
owner — in particular when the id exists only under a different owner —
UpdateArticleStatus, UpdateArticleTags and DeleteArticle each return the
not-found error built from (id, owner); the outcome is a function of
(id, owner) alone, hence identical to the case where the id does not
exist at all. -/
theorem c4_scoped_mutations_not_found (id uid s : String)
    (tags : List String) (now : Nat) (store : Store)
    (hmiss : ∀ r ∈ store, ¬ (r.id = id ∧ r.userID = uid)) :
    UpdateArticleStatus id uid s now store
      = Except.error (StoreError.notFoundOrNotOwned id uid) ∧
    UpdateArticleTags id uid tags now store
      = Except.error (StoreError.notFoundOrNotOwned id uid) ∧
    DeleteArticle id uid store
      = Except.error (StoreError.notFoundOrNotOwned id uid) ∧
    ∀ store2 : Store, (∀ r ∈ store2, ¬ (r.id = id ∧ r.userID = uid)) →
      UpdateArticleStatus id uid s now store
          = UpdateArticleStatus id uid s now store2 ∧
      UpdateArticleTags id uid tags now store
          = UpdateArticleTags id uid tags now store2 ∧
      DeleteArticle id uid store = DeleteArticle id uid store2 := by
  have key : ∀ st : Store, (∀ r ∈ st, ¬ (r.id = id ∧ r.userID = uid)) →
      UpdateArticleStatus id uid s now st
          = Except.error (StoreError.notFoundOrNotOwned id uid) ∧
      UpdateArticleTags id uid tags now st
          = Except.error (StoreError.notFoundOrNotOwned id uid) ∧
      DeleteArticle id uid st
          = Except.error (StoreError.notFoundOrNotOwned id uid) := by
    intro st hm
    have h0 : matchCount id uid st = 0 := by
      simp only [matchCount, List.length_eq_zero, List.filter_eq_nil_iff]
      intro r hr
      simpa using hm r hr
    refine ⟨?_, ?_, ?_⟩ <;>
      simp [UpdateArticleStatus, UpdateArticleTags, DeleteArticle, h0]
  rcases key store hmiss with ⟨h1, h2, h3⟩
  refine ⟨h1, h2, h3, ?_⟩
  intro store2 hmiss2
  rcases key store2 hmiss2 with ⟨g1, g2, g3⟩
  exact ⟨h1.trans g1.symm, h2.trans g2.symm, h3.trans g3.symm⟩

/-- Witness for C4: the id "a1" exists but only under owner "u2"; all
three mutations by owner "u1" return the not-found error. -/
theorem c4_scoped_mutations_not_found_witness :
    UpdateArticleStatus "a1" "u1" "read" 5
      [{ id := "a1", userID := "u2", url := "http://x", title := "",
         summary := "", tagsStr := "", status := "unread",
         createdAt := 0, updatedAt := 0 }]
      = Except.error (StoreError.notFoundOrNotOwned "a1" "u1") :=
  (c4_scoped_mutations_not_found "a1" "u1" "read" ["t"] 5
    [{ id := "a1", userID := "u2", url := "http://x", title := "",
       summary := "", tagsStr := "", status := "unread",
       createdAt := 0, updatedAt := 0 }]
    (by decide)).1

/-- C10: when no row carries both the requested id and the requesting
owner — whether the id is absent or owned by another user —
GetArticleByID returns `ok none` (no article, no error), and the
ReturnArticle handler translates the nil article into a 404 response. -/
theorem c10_read_miss_nil_not_error (id uid : String) (store : Store)
    (hmiss : ∀ r ∈ store, ¬ (r.id = id ∧ r.userID = uid)) :
    GetArticleByID id uid store = Except.ok none ∧
    (id ≠ "" → ReturnArticle uid id store = 404) := by
  have hfind : store.find? (fun r => decide (r.id = id ∧ r.userID = uid))
      = none := by
    rw [List.find?_eq_none]
    intro r hr
    simpa using hmiss r hr
  constructor
  · unfold GetArticleByID
    rw [hfind]
  · intro hid
    unfold ReturnArticle GetArticleByID
    rw [if_neg hid, hfind]

/-- Witness for C10: the id "a1" exists but only under owner "u2"; a
read by owner "u1" yields `ok none`. -/
theorem c10_read_miss_nil_not_error_witness :
    GetArticleByID "a1" "u1"
      [{ id := "a1", userID := "u2", url := "http://x", title := "",
         summary := "", tagsStr := "", status := "unread",
         createdAt := 0, updatedAt := 0 }]
      = Except.ok none :=
  (c10_read_miss_nil_not_error "a1" "u1"
    [{ id := "a1", userID := "u2", url := "http://x", title := "",
       summary := "", tagsStr := "", status := "unread",
       createdAt := 0, updatedAt := 0 }]
    (by decide)).1

lemma splitCommaChars_cons_comma (cs : List Char) :
    splitCommaChars (',' :: cs) = [] :: splitCommaChars cs := by
  simp [splitCommaChars]

lemma splitCommaChars_cons_other (c : Char) (cs : List Char) (hc : c ≠ ',') :
    splitCommaChars (c :: cs)
      = match splitCommaChars cs with
        | [] => [[c]]
        | g :: gs => (c :: g) :: gs := by
  simp [splitCommaChars, hc]

/-- The number of pieces is one more than the number of commas. -/
lemma length_splitCommaChars (s : List Char) :
    (splitCommaChars s).length = s.count ',' + 1 := by
  induction s with
  | nil => rfl
  | cons c cs ih =>
    by_cases hc : c = ','
    · subst hc
      rw [splitCommaChars_cons_comma]
      simp [List.count_cons, ih]
    · rw [splitCommaChars_cons_other c cs hc]
      cases hsp : splitCommaChars cs with
      | nil => rw [hsp] at ih; simp at ih
      | cons g gs =>
        rw [hsp] at ih
        simp [List.count_cons, Ne.symm hc] at ih ⊢
        simpa using ih

/-- A comma-free list splits into the single piece that is itself. -/
lemma splitCommaChars_no_comma (s : List Char) (h : ',' ∉ s) :
    splitCommaChars s = [s] := by
  induction s with
  | nil => rfl
  | cons c cs ih =>
    have hc : c ≠ ',' := by
      rintro rfl
      exact h (List.mem_cons_self _ _)
    have hcs : ',' ∉ cs := fun hm => h (List.mem_cons_of_mem _ hm)
    rw [splitCommaChars_cons_other c cs hc, ih hcs]

/-- Splitting past a comma-free prefix and its separating comma. -/
lemma splitCommaChars_append_comma (l s : List Char) (h : ',' ∉ l) :
    splitCommaChars (l ++ ',' :: s) = l :: splitCommaChars s := by
  induction l with
  | nil => simpa using splitCommaChars_cons_comma s
  | cons c cs ih =>
    have hc : c ≠ ',' := by
      rintro rfl
      exact h (List.mem_cons_self _ _)
    have hcs : ',' ∉ cs := fun hm => h (List.mem_cons_of_mem _ hm)
    rw [List.cons_append, splitCommaChars_cons_other c (cs ++ ',' :: s) hc,
      ih hcs]

/-- Split is a left inverse of join on non-empty lists of comma-free
pieces. -/
lemma splitCommaChars_joinCommaChars (ls : List (List Char)) (h : ls ≠ [])
    (hc : ∀ l ∈ ls, ',' ∉ l) :
    splitCommaChars (joinCommaChars ls) = ls := by
  induction ls with
  | nil => exact absurd rfl h
  | cons l ls2 ih =>
    cases ls2 with
    | nil => exact splitCommaChars_no_comma l (hc l (by simp))
    | cons l2 ls3 =>
      rw [show joinCommaChars (l :: l2 :: ls3)
          = l ++ ',' :: joinCommaChars (l2 :: ls3) from rfl]
      rw [splitCommaChars_append_comma _ _ (hc l (by simp))]
      rw [ih (by simp) (fun x hx => hc x (List.mem_cons_of_mem _ hx))]

/-- Comma count of a join: commas inside the pieces plus one separator
per piece after the first. -/
lemma count_joinCommaChars (l : List Char) (ls : List (List Char)) :
    (joinCommaChars (l :: ls)).count ','
      = l.count ',' + ((ls.map (fun x => x.count ',')).sum + ls.length) := by
  induction ls generalizing l with
  | nil => simp [joinCommaChars]
  | cons l2 ls3 ih =>
    rw [show joinCommaChars (l :: l2 :: ls3)
        = l ++ ',' :: joinCommaChars (l2 :: ls3) from rfl]
    rw [List.count_append, List.count_cons, ih l2]
    simp
    omega

/-- find? skips a prefix on which the predicate fails and picks out an
appended matching row. -/
lemma find?_append_single (store : Store) (p : Row → Bool) (row : Row)
    (hmiss : ∀ r ∈ store, ¬ p r = true) (hrow : p row = true) :
    List.find? p (store ++ [row]) = some row := by
  induction store with
  | nil => simp [List.find?, hrow]
  | cons r t ih =>
    rw [List.cons_append, List.find?_cons_of_neg _ (hmiss r (by simp))]
    exact ih (fun x hx => hmiss x (by simp [hx]))

/-- C9: the tags round-trip through storage is not the identity on the
empty list.  (i) An article saved with an empty tags list reads back
through GetArticleByID with tags [""]; (ii) likewise through
GetArticlesByUserID; (iii) split-after-join returns the original list
exactly when the list is non-empty and no tag contains a comma. -/
theorem c9_tags_roundtrip :
    (∀ (a : Article) (newID : String) (now : Nat) (store : Store),
      a.id = "" → a.tags = [] →
      (∀ r ∈ store, ¬ (r.id = newID ∧ r.userID = a.userID)) →
      ∃ art : Article,
        GetArticleByID newID a.userID (Article.Save a newID now store).2
          = Except.ok (some art) ∧ art.tags = [""]) ∧
    (∀ (a : Article) (newID : String) (now : Nat),
      a.id = "" → a.tags = [] →
      (GetArticlesByUserID a.userID "" "" (Article.Save a newID now []).2).map
        Article.tags = [[""]]) ∧
    (∀ ts : List String,
      goSplit (goJoin ts) = ts ↔
        (ts ≠ [] ∧ ∀ t ∈ ts, ',' ∉ t.data)) := by
  refine ⟨?_, ?_, ?_⟩
  · intro a newID now store hid htags hmiss
    have hsave : (Article.Save a newID now store).2 = store ++
        [{ id := newID, userID := a.userID, url := a.url, title := a.title,
           summary := a.summary, tagsStr := goJoin a.tags,
           status := a.status, createdAt := now, updatedAt := now }] := by
      simp [Article.Save, hid]
    refine ⟨rowToArticle
      { id := newID, userID := a.userID, url := a.url, title := a.title,
        summary := a.summary, tagsStr := goJoin a.tags, status := a.status,
        createdAt := now, updatedAt := now }, ?_, ?_⟩
    · unfold GetArticleByID
      rw [hsave]
      rw [find?_append_single store _ _
        (fun r hr => by simpa using hmiss r hr) (by simp)]
    · rw [htags]
      show goSplit (goJoin []) = [""]
      decide
  · intro a newID now hid htags
    have hsave : (Article.Save a newID now []).2 =
        [{ id := newID, userID := a.userID, url := a.url, title := a.title,
           summary := a.summary, tagsStr := goJoin a.tags,
           status := a.status, createdAt := now, updatedAt := now }] := by
      simp [Article.Save, hid]
    rw [hsave, htags]
    show (GetArticlesByUserID a.userID "" ""
        [{ id := newID, userID := a.userID, url := a.url, title := a.title,
           summary := a.summary, tagsStr := goJoin [],
           status := a.status, createdAt := now, updatedAt := now }]).map
      Article.tags = [[""]]
    unfold GetArticlesByUserID
    simp [rowToArticle]
    show goSplit (goJoin []) = [""]
    decide
  · intro ts
    constructor
    · intro h
      constructor
      · rintro rfl
        revert h
        decide
      · intro t ht hcomma
        have hlen : (goSplit (goJoin ts)).length = ts.length := by rw [h]
        cases ts with
        | nil => exact absurd ht (List.not_mem_nil t)
        | cons t0 ts2 =>
          rw [show goSplit (goJoin (t0 :: ts2)) = (splitCommaChars
              (joinCommaChars ((t0 :: ts2).map String.data))).map String.mk
            from rfl] at hlen
          rw [List.length_map, length_splitCommaChars] at hlen
          rw [show (t0 :: ts2).map String.data
              = t0.data :: ts2.map String.data from rfl] at hlen
          rw [count_joinCommaChars] at hlen
          simp at hlen
          have hpos : 0 < t.data.count ',' :=
            List.count_pos_iff.mpr hcomma
          rcases List.mem_cons.mp ht with rfl | hmem
          · omega
          · have hle : t.data.count ','
                ≤ ((ts2.map String.data).map (fun x => List.count ',' x)).sum := by
              apply List.single_le_sum (fun y _ => Nat.zero_le y)
              exact List.mem_map.mpr ⟨t.data, List.mem_map.mpr ⟨t, hmem, rfl⟩, rfl⟩
            rw [List.map_map] at hle
            omega
    · rintro ⟨h1, h2⟩
      show (splitCommaChars (joinCommaChars (ts.map String.data))).map
        String.mk = ts
      rw [splitCommaChars_joinCommaChars (ts.map String.data)
        (fun hm => h1 (List.map_eq_nil_iff.mp hm))
        (fun l hl => by
          rcases List.mem_map.mp hl with ⟨t, ht, rfl⟩
          exact h2 t ht)]
      rw [List.map_map]
      rw [show String.mk ∘ String.data = id from rfl, List.map_id]

/-- Witness for C9: the round-trip law instantiated at the two-tag list
["x", "y"] (identity holds) and exercised by the iff. -/
theorem c9_tags_roundtrip_witness :
    goSplit (goJoin ["x", "y"]) = ["x", "y"] :=
  (c9_tags_roundtrip.2.2 ["x", "y"]).mpr
    ⟨by decide, by decide⟩

end ReadingList
